import Mathlib

/-!
Verification of the PDFeditor viewer/tool-coordination core.

The JavaScript modules are shallowly embedded: each Lean definition mirrors
one function of the source (pdf-viewer.js / unnamed part_002 for the
workspace and zoom, pdf-editor.js for text boxes and undo/redo,
pdf-redact.js for the redaction commit transform, unnamed part_003 for the
annotation commit transform).  Numeric values are modelled as rationals,
byte payloads as lists of naturals, and the external document engine and
rasterizer as explicit function parameters.
-/

namespace PDFeditor

/-- Raw byte payload of a document. -/
abbrev Bytes := List Nat

/-- One open document session, mirroring the fields of the objects stored in
`openDocs` in the viewer module (id, name, pdfBytes, pageCount, currentPage,
zoom, selectedPages; the `pdfDoc` handle and thumbnail canvases are external
resources and are not part of the model). -/
structure DocSession where
  id : Nat
  name : String
  pdfBytes : Bytes
  pageCount : Nat
  currentPage : Nat
  zoom : ℚ
  selectedPages : Finset Nat
deriving DecidableEq

instance : Inhabited DocSession :=
  ⟨{ id := 0, name := "", pdfBytes := [], pageCount := 0, currentPage := 0,
     zoom := 1, selectedPages := ∅ }⟩

/-- The workspace: the ordered list `openDocs` plus `activeDocIndex`
(-1 when no document is open, as in the source). -/
structure Workspace where
  openDocs : List DocSession
  activeDocIndex : Int

/-- JavaScript `Array.prototype.findIndex`, returning `none` instead of -1. -/
def findIndexOpt {α : Type} (p : α → Bool) : List α → Option Nat
  | [] => none
  | a :: l => if p a then some 0 else (findIndexOpt p l).map (· + 1)

/-- Embedding of `getActiveDoc` (pdf-viewer.js): `null` when the active index
is out of range, otherwise the session at that index. -/
def getActiveDoc (ws : Workspace) : Option DocSession :=
  if ws.activeDocIndex < 0 ∨ (ws.openDocs.length : Int) ≤ ws.activeDocIndex then none
  else ws.openDocs[ws.activeDocIndex.toNat]?

/-- Embedding of `switchToDocument(docId)` (part_002 lines 113-125): a no-op
when the id is unknown, otherwise sets `activeDocIndex` to the index of the
session with that id.  Re-rendering touches only the DOM, not the sessions. -/
def switchToDocument (ws : Workspace) (docId : Nat) : Workspace :=
  match findIndexOpt (fun d => d.id == docId) ws.openDocs with
  | none => ws
  | some idx => { ws with activeDocIndex := (idx : Int) }

/-- The toolbar/sidebar button ids disabled when the last document closes
(part_002 lines 139-150). -/
def PDF_CLOSE_BUTTONS : List String :=
  ["tb-save", "tb-print", "tb-merge", "tb-extract", "tb-toword",
   "tb-zoomin", "tb-zoomout", "tb-fitpage", "tb-editmode", "tb-rotate",
   "tb-undo", "tb-redo",
   "side-merge", "side-extract", "side-toword",
   "side-print", "side-save",
   "side-redact-draw", "side-redact-search",
   "side-highlight", "side-underline", "side-sticky", "side-draw", "side-stamp",
   "side-rotate", "side-crop", "side-insert-blank", "side-split", "side-page-numbers",
   "side-fill-fields", "side-add-fields", "side-flatten",
   "side-to-images", "side-compress"]

/-- Embedding of `closeDocument(docId)` (part_002 lines 127-156).  Returns the
new workspace together with the list of toolbar button ids that were disabled
(empty when no disabling happened).  When sessions remain the source sets
`activeDocIndex = Math.min(idx, openDocs.length - 1)` and then calls
`switchToDocument(openDocs[activeDocIndex].id)`. -/
def closeDocument (ws : Workspace) (docId : Nat) : Workspace × List String :=
  match findIndexOpt (fun d => d.id == docId) ws.openDocs with
  | none => (ws, [])
  | some idx =>
    let docs := ws.openDocs.eraseIdx idx
    if docs.length = 0 then
      ({ openDocs := docs, activeDocIndex := -1 }, PDF_CLOSE_BUTTONS)
    else
      let newIdx : Nat := min idx (docs.length - 1)
      let ws1 : Workspace := { openDocs := docs, activeDocIndex := (newIdx : Int) }
      (switchToDocument ws1 (docs.getD newIdx default).id, [])

/-- Embedding of `zoomIn` (part_002 lines 464-471):
`doc.zoom = Math.min(4, doc.zoom + 0.25)`. -/
def zoomIn (d : DocSession) : DocSession :=
  { d with zoom := min 4 (d.zoom + 1/4) }

/-- Embedding of `zoomOut` (part_002 lines 473-480):
`doc.zoom = Math.max(0.25, doc.zoom - 0.25)`. -/
def zoomOut (d : DocSession) : DocSession :=
  { d with zoom := max (1/4) (d.zoom - 1/4) }

/-- Embedding of the numeric branch of `setZoom` (part_002 line 458):
`doc.zoom = parseFloat(zoom)` with no clamping. -/
def setZoom (d : DocSession) (z : ℚ) : DocSession :=
  { d with zoom := z }

/-- Embedding of the `zoom === \x27fit\x27` branch of `setZoom` (part_002
lines 446-455): the fit scale computed from the viewport and page sizes is
assigned with no clamping. -/
def setZoomFit (d : DocSession) (viewportW viewportH pageW pageH : ℚ) : DocSession :=
  { d with zoom := min ((viewportW - 40) / pageW) ((viewportH - 40) / pageH) }

/-- The DocumentSession zoom invariant stated by the spec: zoom within
[0.25, 4.0]. -/
def zoomInvariant (d : DocSession) : Prop :=
  1/4 ≤ d.zoom ∧ d.zoom ≤ 4

instance (d : DocSession) : Decidable (zoomInvariant d) :=
  inferInstanceAs (Decidable (_ ∧ _))

/-- A zoom-toolbar step: the operations that move the zoom by fixed
increments (`zoomIn` / `zoomOut`). -/
inductive ZoomStep
  | zin
  | zout
deriving DecidableEq

/-- Applies a sequence of `zoomIn`/`zoomOut` steps to a session. -/
def applyZoomSteps (steps : List ZoomStep) (d : DocSession) : DocSession :=
  steps.foldl (fun s st => match st with | .zin => zoomIn s | .zout => zoomOut s) d

/-- Embedding of `refreshDocument(pdfBytes, keepPage)` (part_002 lines
575-594): replaces the active session's bytes, recomputes the page count via
the external engine (`numPages`), clamps the current page, and clears the
page selection.  `keepPage = none` models the JavaScript call without the
second argument. -/
def refreshDocument (numPages : Bytes → Nat) (pdfBytes : Bytes) (keepPage : Option Nat)
    (d : DocSession) : DocSession :=
  let currentPage := keepPage.getD d.currentPage
  { d with pdfBytes := pdfBytes,
           pageCount := numPages pdfBytes,
           currentPage := min currentPage (numPages pdfBytes),
           selectedPages := ∅ }

/-- One in-memory text box, mirroring the objects in `textBoxes`
(pdf-editor.js line 7). -/
structure TextBox where
  id : Nat
  pageNum : Nat
  x : ℚ
  y : ℚ
  width : ℚ
  height : ℚ
  text : String
  fontSize : ℚ
  fontFamily : String
deriving DecidableEq

/-- The undo actions pushed by the mutating operations, tagged by the same
type strings used in the source; every structural commit carries the
pre-action byte snapshot it passes as `prevBytes`. -/
inductive UndoAction
  | addText (box : TextBox)
  | delete (pages : List Nat) (prevBytes : Bytes)
  | reorder (fromPage toPage : Nat) (prevBytes : Bytes)
  | redact (prevBytes : Bytes)
  | searchRedact (prevBytes : Bytes)
  | stamp (prevBytes : Bytes)
  | rotate (pages : List Nat) (degs : Int) (prevBytes : Bytes)
  | crop (prevBytes : Bytes)
  | insertBlank (prevBytes : Bytes)
  | pageNumbers (prevBytes : Bytes)
  | fillForm (prevBytes : Bytes)
  | addField (prevBytes : Bytes)
  | flattenForm (prevBytes : Bytes)
  | compress (prevBytes : Bytes)
deriving DecidableEq

/-- The editor module state (pdf-editor.js lines 6-11) together with the
active session it operates on through the viewer. -/
structure EditorState where
  textBoxes : List TextBox
  nextBoxId : Nat
  undoStack : List UndoAction
  redoStack : List UndoAction
  session : DocSession
deriving DecidableEq

/-- The undo-stack bound `MAX_UNDO` (pdf-editor.js line 11). -/
def MAX_UNDO : Nat := 50

/-- Embedding of `pushUndo(action)` (pdf-editor.js lines 302-307): append the
action, evict the oldest entry if the bound is exceeded, and clear the redo
stack.  The stack is modelled oldest-first, so `push` appends and `shift`
drops the head. -/
def pushUndo (a : UndoAction) (s : EditorState) : EditorState :=
  let stack := s.undoStack ++ [a]
  { s with undoStack := if MAX_UNDO < stack.length then stack.drop 1 else stack,
           redoStack := [] }

/-- Embedding of `undo()` (pdf-editor.js lines 309-325): pop the most recent
action onto the redo stack; restore `prevBytes` only when the action type is
`delete` or `reorder`; remove the in-memory box for `add-text`; all other
action types get stack bookkeeping only. -/
def undo (numPages : Bytes → Nat) (s : EditorState) : EditorState :=
  match s.undoStack.getLast? with
  | none => s
  | some a =>
    let s1 := { s with undoStack := s.undoStack.dropLast,
                       redoStack := s.redoStack ++ [a] }
    match a with
    | .delete _ prev => { s1 with session := refreshDocument numPages prev none s1.session }
    | .reorder _ _ prev => { s1 with session := refreshDocument numPages prev none s1.session }
    | .addText box => { s1 with textBoxes := s1.textBoxes.filter (fun b => b.id != box.id) }
    | _ => s1

/-- Embedding of `redo()` (pdf-editor.js lines 327-340): pop the most recent
redo action back onto the undo stack; re-add the in-memory box for
`add-text`; delete/reorder and the other snapshot actions are not
re-executed. -/
def redo (s : EditorState) : EditorState :=
  match s.redoStack.getLast? with
  | none => s
  | some a =>
    let s1 := { s with redoStack := s.redoStack.dropLast,
                       undoStack := s.undoStack ++ [a] }
    match a with
    | .addText box => { s1 with textBoxes := s1.textBoxes ++ [box] }
    | _ => s1

/-- Embedding of `createTextBox(pageNum, x, y, text, fontSize)`
(pdf-editor.js lines 67-95): allocates the next id, appends the box, and
pushes an `add-text` action carrying a copy of the box. -/
def createTextBox (pageNum : Nat) (x y : ℚ) (text : String) (fontSize : ℚ)
    (s : EditorState) : TextBox × EditorState :=
  let box : TextBox :=
    { id := s.nextBoxId, pageNum := pageNum, x := x, y := y,
      width := 150, height := 24, text := text, fontSize := fontSize,
      fontFamily := "Helvetica" }
  let s1 := { s with textBoxes := s.textBoxes ++ [box], nextBoxId := s.nextBoxId + 1 }
  (box, pushUndo (.addText box) s1)

/-- Embedding of `deletePages(pageNums)` (pdf-editor.js lines 209-245) with
the document engine abstracted as `engine` (pages removed in descending
order) and `numPages`.  Returns the new state and whether the engine was
invoked.  An empty request defaults to the current page; a request of at
least `pageCount` pages is rejected before any engine call. -/
def deletePages (engine : Bytes → List Nat → Bytes) (numPages : Bytes → Nat)
    (pageNums : List Nat) (s : EditorState) : EditorState × Bool :=
  let pages := if pageNums.isEmpty then [s.session.currentPage] else pageNums
  if s.session.pageCount ≤ pages.length then
    (s, false)
  else
    let sorted := pages.mergeSort (fun a b => decide (b ≤ a))
    let newBytes := engine s.session.pdfBytes sorted
    let s1 := pushUndo (.delete pages s.session.pdfBytes) s
    ({ s1 with session := refreshDocument numPages newBytes none s1.session }, true)

/-- One redaction rectangle as stored in `redactRects` (pdf-redact.js
line 7), in screen space. -/
structure RedactRect where
  pageNum : Nat
  x : ℚ
  y : ℚ
  w : ℚ
  h : ℚ
  color : String
deriving DecidableEq

/-- A document-space rectangle as passed to the engine's
`drawRectangle` call. -/
structure DocRect where
  x : ℚ
  y : ℚ
  width : ℚ
  height : ℚ
deriving DecidableEq

/-- One `drawRectangle` operation issued to the document engine during the
redaction commit. -/
structure DrawRectOp where
  pageIdx : Nat
  rect : DocRect
  white : Bool
deriving DecidableEq

/-- The screen-to-document transform performed inside `applyRedactions`
(pdf-redact.js lines 237-243), parameterized by the zoom active at commit
time and the page height reported by the engine. -/
def redactRectToDoc (zoom pageHeight : ℚ) (r : RedactRect) : DocRect :=
  { x := r.x / zoom,
    y := pageHeight - (r.y / zoom) - (r.h / zoom),
    width := r.w / zoom,
    height := r.h / zoom }

/-- Embedding of the drawing loop of `applyRedactions` (pdf-redact.js lines
230-244): each rect whose page exists yields one engine `drawRectangle`
call; rects on missing pages are skipped (`if (!page) continue`). -/
def applyRedactions (zoom : ℚ) (pageHeights : List ℚ) (rects : List RedactRect) :
    List DrawRectOp :=
  rects.filterMap fun r =>
    (pageHeights[r.pageNum - 1]?).map fun ph =>
      { pageIdx := r.pageNum - 1,
        rect := redactRectToDoc zoom ph r,
        white := r.color == "white" }

/-- Embedding of the commit step of `applyRedactions` (pdf-redact.js lines
246-253): the engine saves new bytes, a `redact` action carrying the previous
bytes is pushed, and the session is refreshed with the new bytes. -/
def applyRedactionsCommit (numPages : Bytes → Nat) (newBytes : Bytes)
    (s : EditorState) : EditorState :=
  let s1 := pushUndo (.redact s.session.pdfBytes) s
  { s1 with session := refreshDocument numPages newBytes none s1.session }

/-- One highlight/underline annotation as stored in `annotations`
(part_003 line 7), in screen space. -/
structure Annot where
  type : String
  pageNum : Nat
  x : ℚ
  y : ℚ
  w : ℚ
  h : ℚ
deriving DecidableEq

/-- The screen-to-document transform performed for a highlight inside
`applyAnnotations` (part_003 lines 467-475). -/
def highlightDrawRect (zoom pageHeight : ℚ) (a : Annot) : DocRect :=
  { x := a.x / zoom,
    y := pageHeight - (a.y / zoom) - (a.h / zoom),
    width := a.w / zoom,
    height := a.h / zoom }

/-- The coordinate transform exactly as the spec states it (section 4.1):
docX = screenX / zoom; docY = pageHeightInDocUnits - screenY / zoom -
screenH / zoom; widths and heights divide by zoom.  Written from the spec's
words, to be compared with the transforms embedded from the source. -/
def toDocumentSpaceSpec (screenX screenY screenW screenH zoom pageHeightInDocUnits : ℚ) :
    DocRect :=
  { x := screenX / zoom,
    y := pageHeightInDocUnits - screenY / zoom - screenH / zoom,
    width := screenW / zoom,
    height := screenH / zoom }

/-- A one-page demo session used by concrete scenarios. -/
def demoA : DocSession :=
  { id := 1, name := "a", pdfBytes := [10, 20], pageCount := 1,
    currentPage := 1, zoom := 1, selectedPages := ∅ }

/-- A second demo session. -/
def demoB : DocSession :=
  { id := 2, name := "b", pdfBytes := [30], pageCount := 2,
    currentPage := 2, zoom := 2, selectedPages := ∅ }

/-- A third demo session. -/
def demoC : DocSession :=
  { id := 3, name := "c", pdfBytes := [40], pageCount := 3,
    currentPage := 1, zoom := 1, selectedPages := ∅ }

/-- A three-session demo workspace whose active session is the third one. -/
def demoWorkspace3 : Workspace :=
  { openDocs := [demoA, demoB, demoC], activeDocIndex := 2 }

/-- The editor state holding the demo session with empty stacks. -/
def emptyEditor : EditorState :=
  { textBoxes := [], nextBoxId := 1, undoStack := [], redoStack := [],
    session := demoA }

/-- The editor state after pushing 51 undo actions onto an empty stack. -/
def push51 : EditorState :=
  (List.range 51).foldl (fun st i => pushUndo (UndoAction.redact [i]) st) emptyEditor

theorem findIndexOpt_lt_length {α : Type} {p : α → Bool} :
    ∀ {l : List α} {i : Nat}, findIndexOpt p l = some i → i < l.length := by
  intro l
  induction l with
  | nil => intro i h; simp [findIndexOpt] at h
  | cons a t ih =>
    intro i h
    unfold findIndexOpt at h
    cases hp : p a with
    | true =>
      rw [hp] at h
      simp at h
      simp
      omega
    | false =>
      rw [hp] at h
      simp at h
      obtain ⟨j, hj, rfl⟩ := h
      have := ih hj
      simp
      omega

theorem findIndexOpt_pred_true {α : Type} {p : α → Bool} :
    ∀ {l : List α} {i : Nat} (h : findIndexOpt p l = some i)
      (hi : i < l.length), p l[i] = true := by
  intro l
  induction l with
  | nil => intro i h hi; simp [findIndexOpt] at h
  | cons a t ih =>
    intro i h hi
    unfold findIndexOpt at h
    cases hp : p a with
    | true =>
      rw [hp] at h
      simp at h
      subst h
      simpa using hp
    | false =>
      rw [hp] at h
      simp at h
      obtain ⟨j, hj, rfl⟩ := h
      exact ih hj (by simpa using Nat.lt_of_succ_lt_succ (by simpa using hi))

theorem findIndexOpt_id_self :
    ∀ {l : List DocSession}, (l.map DocSession.id).Nodup →
      ∀ {i : Nat} (hi : i < l.length),
        findIndexOpt (fun d => d.id == l[i].id) l = some i := by
  intro l
  induction l with
  | nil => intro _ i hi; simp at hi
  | cons a t ih =>
    intro hnd i hi
    cases i with
    | zero =>
      unfold findIndexOpt
      simp
    | succ j =>
      have hj : j < t.length := by simpa using Nat.lt_of_succ_lt_succ hi
      rw [List.map_cons] at hnd
      have hnot : a.id ∉ t.map DocSession.id := (List.nodup_cons.mp hnd).1
      have ht : (t.map DocSession.id).Nodup := (List.nodup_cons.mp hnd).2
      have hmem : t[j].id ∈ t.map DocSession.id :=
        List.mem_map.mpr ⟨t[j], List.getElem_mem hj, rfl⟩
      have hane : (a.id == t[j].id) = false := by
        have hne : a.id ≠ t[j].id := fun he => hnot (he ▸ hmem)
        simpa using hne
      unfold findIndexOpt
      simp only [List.getElem_cons_succ]
      rw [hane, ih ht hj]
      rfl

theorem get_not_mem_eraseIdx {α : Type} :
    ∀ {l : List α}, l.Nodup → ∀ {i : Nat} (hi : i < l.length),
      l[i] ∉ l.eraseIdx i := by
  intro l
  induction l with
  | nil => intro _ i hi; simp at hi
  | cons a t ih =>
    intro hnd i hi
    cases i with
    | zero =>
      simpa [List.eraseIdx] using (List.nodup_cons.mp hnd).1
    | succ j =>
      have hj : j < t.length := by simpa using Nat.lt_of_succ_lt_succ hi
      have hnotmem : a ∉ t := (List.nodup_cons.mp hnd).1
      have hne : t[j] ≠ a := fun he => hnotmem (he ▸ List.getElem_mem hj)
      have hrec := ih (List.nodup_cons.mp hnd).2 hj
      simp only [List.eraseIdx, List.getElem_cons_succ, List.mem_cons]
      rintro (h | h)
      · exact hne h
      · exact hrec h

theorem map_eraseIdx' {α β : Type} (f : α → β) :
    ∀ (l : List α) (i : Nat), (l.eraseIdx i).map f = (l.map f).eraseIdx i := by
  intro l
  induction l with
  | nil => intro i; simp [List.eraseIdx]
  | cons a t ih =>
    intro i
    cases i with
    | zero => simp [List.eraseIdx]
    | succ j => simp [List.eraseIdx, ih j]

theorem getD_eq_getElem {α : Type} {l : List α} {i : Nat} (h : i < l.length) (d : α) :
    l.getD i d = l[i] := by
  rw [List.getD_eq_getElem?_getD, List.getElem?_eq_getElem h]
  rfl

theorem pushUndo_undoStack_getLast (a : UndoAction) (s : EditorState) :
    (pushUndo a s).undoStack.getLast? = some a := by
  show (if MAX_UNDO < (s.undoStack ++ [a]).length
        then (s.undoStack ++ [a]).drop 1 else s.undoStack ++ [a]).getLast? = some a
  by_cases h : MAX_UNDO < (s.undoStack ++ [a]).length
  · rw [if_pos h]
    cases hs : s.undoStack with
    | nil => exact absurd h (by simp [hs, MAX_UNDO])
    | cons x xs => simp [hs, List.getLast?_concat]
  · rw [if_neg h]
    exact List.getLast?_concat _

theorem switchToDocument_openDocs (ws : Workspace) (docId : Nat) :
    (switchToDocument ws docId).openDocs = ws.openDocs := by
  unfold switchToDocument
  cases findIndexOpt (fun d => d.id == docId) ws.openDocs <;> rfl

theorem switchToDocument_activeDocIndex {ws : Workspace} {docId i : Nat}
    (h : findIndexOpt (fun d => d.id == docId) ws.openDocs = some i) :
    (switchToDocument ws docId).activeDocIndex = (i : Int) := by
  unfold switchToDocument
  rw [h]

theorem closeDocument_empty_spec (ws : Workspace) (docId idx : Nat)
    (hfind : findIndexOpt (fun d => d.id == docId) ws.openDocs = some idx)
    (hlen : ws.openDocs.length = 1) :
    (closeDocument ws docId).1.openDocs = ws.openDocs.eraseIdx idx
    ∧ (closeDocument ws docId).1.activeDocIndex = -1
    ∧ (closeDocument ws docId).2 = PDF_CLOSE_BUTTONS := by
  have hidx := findIndexOpt_lt_length hfind
  have h0 : (ws.openDocs.eraseIdx idx).length = 0 := by
    rw [List.length_eraseIdx, if_pos hidx]
    omega
  simp only [closeDocument, hfind, if_pos h0]
  exact ⟨trivial, trivial, trivial⟩

theorem closeDocument_nonempty_spec (ws : Workspace) (docId idx : Nat)
    (hnd : (ws.openDocs.map DocSession.id).Nodup)
    (hfind : findIndexOpt (fun d => d.id == docId) ws.openDocs = some idx)
    (hlen : 2 ≤ ws.openDocs.length) :
    (closeDocument ws docId).1.openDocs = ws.openDocs.eraseIdx idx
    ∧ (closeDocument ws docId).1.activeDocIndex
        = ((min idx (ws.openDocs.length - 2) : Nat) : Int)
    ∧ (closeDocument ws docId).2 = []
    ∧ getActiveDoc (closeDocument ws docId).1
        = (ws.openDocs.eraseIdx idx)[min idx (ws.openDocs.length - 2)]? := by
  have hidx : idx < ws.openDocs.length := findIndexOpt_lt_length hfind
  have hlenE : (ws.openDocs.eraseIdx idx).length = ws.openDocs.length - 1 := by
    rw [List.length_eraseIdx, if_pos hidx]
  have hne : ¬ (ws.openDocs.eraseIdx idx).length = 0 := by omega
  have hminEq : min idx ((ws.openDocs.eraseIdx idx).length - 1)
      = min idx (ws.openDocs.length - 2) := by
    rw [hlenE]
    omega
  have hminlt : min idx ((ws.openDocs.eraseIdx idx).length - 1)
      < (ws.openDocs.eraseIdx idx).length := by omega
  have hndE : ((ws.openDocs.eraseIdx idx).map DocSession.id).Nodup := by
    rw [map_eraseIdx']
    exact List.Nodup.sublist (List.eraseIdx_sublist _ idx) hnd
  have hgetD : (ws.openDocs.eraseIdx idx).getD
      (min idx ((ws.openDocs.eraseIdx idx).length - 1)) default
      = (ws.openDocs.eraseIdx idx)[min idx ((ws.openDocs.eraseIdx idx).length - 1)] :=
    getD_eq_getElem hminlt _
  have hswfind : findIndexOpt
      (fun d => d.id == (ws.openDocs.eraseIdx idx)[min idx ((ws.openDocs.eraseIdx idx).length - 1)].id)
      (ws.openDocs.eraseIdx idx)
      = some (min idx ((ws.openDocs.eraseIdx idx).length - 1)) :=
    findIndexOpt_id_self hndE hminlt
  have hclose : closeDocument ws docId
      = (switchToDocument
          { openDocs := ws.openDocs.eraseIdx idx,
            activeDocIndex := ((min idx ((ws.openDocs.eraseIdx idx).length - 1) : Nat) : Int) }
          ((ws.openDocs.eraseIdx idx).getD
            (min idx ((ws.openDocs.eraseIdx idx).length - 1)) default).id, []) := by
    simp only [closeDocument, hfind, if_neg hne]
  have hactive : (closeDocument ws docId).1.activeDocIndex
      = ((min idx (ws.openDocs.length - 2) : Nat) : Int) := by
    rw [hclose]
    rw [hgetD] at hclose ⊢
    rw [← hminEq]
    exact switchToDocument_activeDocIndex hswfind
  refine ⟨?_, hactive, ?_, ?_⟩
  · rw [hclose]
    exact switchToDocument_openDocs _ _
  · rw [hclose]
  · have hdocs : (closeDocument ws docId).1.openDocs = ws.openDocs.eraseIdx idx := by
      rw [hclose]; exact switchToDocument_openDocs _ _
    unfold getActiveDoc
    rw [hdocs, hactive]
    have hmlt : min idx (ws.openDocs.length - 2) < (ws.openDocs.eraseIdx idx).length := by
      omega
    rw [if_neg]
    · simp only [Int.toNat_natCast]
    · push_neg
      constructor
      · exact Int.natCast_nonneg _
      · exact_mod_cast hmlt

/-- C5: `close(id)` removes the session with that id; if it was the active
session and others remain, the new active session is the one now at the same
index (or the last session when that index is out of range); if no session
remains, the workspace transitions to empty (active index -1) and all
document-scoped controls are disabled. -/
theorem C5_close_lifecycle (ws : Workspace) (docId idx : Nat)
    (hnd : (ws.openDocs.map DocSession.id).Nodup)
    (hfind : findIndexOpt (fun d => d.id == docId) ws.openDocs = some idx) :
    ((closeDocument ws docId).1.openDocs = ws.openDocs.eraseIdx idx)
    ∧ (docId ∉ ((closeDocument ws docId).1.openDocs.map DocSession.id))
    ∧ (ws.openDocs.length = 1 →
        (closeDocument ws docId).1.activeDocIndex = -1
        ∧ (closeDocument ws docId).2 = PDF_CLOSE_BUTTONS)
    ∧ (2 ≤ ws.openDocs.length → ws.activeDocIndex = (idx : Int) →
        getActiveDoc (closeDocument ws docId).1
          = (ws.openDocs.eraseIdx idx)[min idx (ws.openDocs.length - 2)]?) := by
  have hidx : idx < ws.openDocs.length := findIndexOpt_lt_length hfind
  have hid : ws.openDocs[idx].id = docId := by
    have := findIndexOpt_pred_true hfind hidx
    simpa using this
  have hnm := get_not_mem_eraseIdx hnd (i := idx) (by simpa using hidx)
  by_cases hlen1 : ws.openDocs.length = 1
  · obtain ⟨h1, h2, h3⟩ := closeDocument_empty_spec ws docId idx hfind hlen1
    refine ⟨h1, ?_, fun _ => ⟨h2, h3⟩, fun hge _ => absurd hge (by omega)⟩
    rw [h1, map_eraseIdx']
    simpa [hid] using hnm
  · have hge : 2 ≤ ws.openDocs.length := by omega
    obtain ⟨h1, _, _, h4⟩ := closeDocument_nonempty_spec ws docId idx hnd hfind hge
    refine ⟨h1, ?_, fun he => absurd he (by omega), fun _ _ => h4⟩
    rw [h1, map_eraseIdx']
    simpa [hid] using hnm

/-- Witness for C5, instantiated on the three-session demo workspace by
closing the active session (id 3, index 2). -/
theorem C5_close_lifecycle_witness :
    ((closeDocument demoWorkspace3 3).1.openDocs = demoWorkspace3.openDocs.eraseIdx 2)
    ∧ (3 ∉ ((closeDocument demoWorkspace3 3).1.openDocs.map DocSession.id))
    ∧ (demoWorkspace3.openDocs.length = 1 →
        (closeDocument demoWorkspace3 3).1.activeDocIndex = -1
        ∧ (closeDocument demoWorkspace3 3).2 = PDF_CLOSE_BUTTONS)
    ∧ (2 ≤ demoWorkspace3.openDocs.length →
        demoWorkspace3.activeDocIndex = ((2 : Nat) : Int) →
        getActiveDoc (closeDocument demoWorkspace3 3).1
          = (demoWorkspace3.openDocs.eraseIdx 2)[min 2 (demoWorkspace3.openDocs.length - 2)]?) :=
  C5_close_lifecycle demoWorkspace3 3 2 (by decide) (by decide)

/-- C10: `close(id)` always reassigns the active session to the one at index
min(closedIndex, remainingCount - 1) regardless of which session was active
before; consequently closing a non-active session can change the active
session (demo: with sessions at indices 0,1,2 and index 2 active, closing
index 0 makes index 1 the active session). -/
theorem C10_close_reassigns_active (ws : Workspace) (docId idx : Nat)
    (hnd : (ws.openDocs.map DocSession.id).Nodup)
    (hfind : findIndexOpt (fun d => d.id == docId) ws.openDocs = some idx)
    (hlen : 2 ≤ ws.openDocs.length) :
    ((closeDocument ws docId).1.activeDocIndex
        = ((min idx (ws.openDocs.length - 2) : Nat) : Int))
    ∧ (getActiveDoc demoWorkspace3 = some demoC
       ∧ getActiveDoc (closeDocument demoWorkspace3 1).1 = some demoB
       ∧ demoB ≠ demoC) :=
  ⟨(closeDocument_nonempty_spec ws docId idx hnd hfind hlen).2.1,
   by decide, by decide, by decide⟩

/-- Witness for C10: closing the non-active first session of the demo
workspace. -/
theorem C10_close_reassigns_active_witness :
    ((closeDocument demoWorkspace3 1).1.activeDocIndex
        = ((min 0 (demoWorkspace3.openDocs.length - 2) : Nat) : Int))
    ∧ (getActiveDoc demoWorkspace3 = some demoC
       ∧ getActiveDoc (closeDocument demoWorkspace3 1).1 = some demoB
       ∧ demoB ≠ demoC) :=
  C10_close_reassigns_active demoWorkspace3 1 0 (by decide) (by decide) (by decide)

/-- C9: switching the active session to another session and back leaves the
first session's currentPage, zoom and selected-page set exactly as before
(switchToDocument only changes the active index, never the sessions). -/
theorem C9_switch_roundtrip (ws : Workspace) (id1 id2 i : Nat)
    (hlen : 2 ≤ ws.openDocs.length)
    (hfind : findIndexOpt (fun d => d.id == id1) ws.openDocs = some i)
    (hact : ws.activeDocIndex = (i : Int)) :
    getActiveDoc (switchToDocument (switchToDocument ws id2) id1) = getActiveDoc ws
    ∧ (getActiveDoc (switchToDocument (switchToDocument ws id2) id1)).map
        (fun d => (d.currentPage, d.zoom, d.selectedPages))
      = (getActiveDoc ws).map (fun d => (d.currentPage, d.zoom, d.selectedPages)) := by
  have hdocs1 : (switchToDocument ws id2).openDocs = ws.openDocs :=
    switchToDocument_openDocs ws id2
  have hfind2 : findIndexOpt (fun d => d.id == id1) (switchToDocument ws id2).openDocs
      = some i := by
    rw [hdocs1]
    exact hfind
  have hact2 : (switchToDocument (switchToDocument ws id2) id1).activeDocIndex = (i : Int) :=
    switchToDocument_activeDocIndex hfind2
  have hdocs2 : (switchToDocument (switchToDocument ws id2) id1).openDocs = ws.openDocs := by
    rw [switchToDocument_openDocs, hdocs1]
  have heq : getActiveDoc (switchToDocument (switchToDocument ws id2) id1)
      = getActiveDoc ws := by
    unfold getActiveDoc
    rw [hdocs2, hact2, hact]
  exact ⟨heq, by rw [heq]⟩

/-- Witness for C9: demo workspace active on session id 3, switching to id 1
and back to id 3. -/
theorem C9_switch_roundtrip_witness :
    getActiveDoc (switchToDocument (switchToDocument demoWorkspace3 1) 3)
      = getActiveDoc demoWorkspace3
    ∧ (getActiveDoc (switchToDocument (switchToDocument demoWorkspace3 1) 3)).map
        (fun d => (d.currentPage, d.zoom, d.selectedPages))
      = (getActiveDoc demoWorkspace3).map
        (fun d => (d.currentPage, d.zoom, d.selectedPages)) :=
  C9_switch_roundtrip demoWorkspace3 3 1 2 (by decide) (by decide) (by decide)

/-- Counterexample for C2: `setZoom` assigns the parsed value with no
clamping, so a session whose zoom satisfies the invariant leaves [0.25, 4.0]
after `setZoom(8)`. -/
theorem C2_setZoom_unclamped_counterexample :
    zoomInvariant demoA
    ∧ (setZoom demoA 8).zoom = 8
    ∧ ¬ zoomInvariant (setZoom demoA 8) := by
  refine ⟨⟨?_, ?_⟩, rfl, ?_⟩
  · norm_num [demoA]
  · norm_num [demoA]
  · norm_num [zoomInvariant, setZoom]

/-- C2 (amended): the zoom factor stays within [0.25, 4.0] under every
sequence of zoomIn / zoomOut operations starting from a zoom in that
interval; `setZoom` (numeric or fit) assigns its value unclamped and can
leave the interval. -/
theorem C2_zoomInOut_bounded (steps : List ZoomStep) (d : DocSession)
    (h : zoomInvariant d) : zoomInvariant (applyZoomSteps steps d) := by
  induction steps generalizing d with
  | nil => exact h
  | cons st rest ih =>
    obtain ⟨h1, h2⟩ := h
    cases st with
    | zin =>
      have hstep : zoomInvariant (zoomIn d) :=
        ⟨le_min (by norm_num) (by linarith), min_le_left _ _⟩
      simpa [applyZoomSteps, List.foldl_cons] using ih (zoomIn d) hstep
    | zout =>
      have hstep : zoomInvariant (zoomOut d) :=
        ⟨le_max_left _ _, max_le (by norm_num) (by linarith)⟩
      simpa [applyZoomSteps, List.foldl_cons] using ih (zoomOut d) hstep

/-- Witness for C2 (amended): three zoom steps on the demo session. -/
theorem C2_zoomInOut_bounded_witness :
    zoomInvariant demoA
    ∧ zoomInvariant (applyZoomSteps [ZoomStep.zin, ZoomStep.zin, ZoomStep.zout] demoA) :=
  ⟨⟨by norm_num [demoA], by norm_num [demoA]⟩,
   C2_zoomInOut_bounded [ZoomStep.zin, ZoomStep.zin, ZoomStep.zout] demoA
     ⟨by norm_num [demoA], by norm_num [demoA]⟩⟩

/-- Counterexample for C3: the rectangle drawn at screen (100,100,50,20) at
zoom 2.0 on page 2 commits to document y = pageHeight - 100/2 - 20/2 =
pageHeight - 60 (here with pageHeight 842: y = 782), not pageHeight - 70. -/
theorem C3_redact_scenario_counterexample :
    applyRedactions 2 [842, 842, 842]
        [{ pageNum := 2, x := 100, y := 100, w := 50, h := 20, color := "black" }]
      = [{ pageIdx := 1,
           rect := { x := 50, y := 842 - 60, width := 25, height := 10 },
           white := false }]
    ∧ applyRedactions 2 [842, 842, 842]
        [{ pageNum := 2, x := 100, y := 100, w := 50, h := 20, color := "black" }]
      ≠ [{ pageIdx := 1,
           rect := { x := 50, y := 842 - 70, width := 25, height := 10 },
           white := false }] := by
  constructor
  · simp only [applyRedactions, redactRectToDoc, List.filterMap]
    norm_num
    decide
  · simp only [applyRedactions, redactRectToDoc, List.filterMap]
    norm_num

/-- C3 (amended): on a 3-page document at zoom 2.0, applying the redaction
rectangle drawn at screen (100,100,50,20) on page 2 produces the
document-space rectangle (50, pageHeight - 60, 25, 10) on page 2. -/
theorem C3_redact_scenario_amended (ph1 ph2 ph3 : ℚ) :
    applyRedactions 2 [ph1, ph2, ph3]
        [{ pageNum := 2, x := 100, y := 100, w := 50, h := 20, color := "black" }]
      = [{ pageIdx := 1,
           rect := { x := 50, y := ph2 - 60, width := 25, height := 10 },
           white := false }] := by
  simp only [applyRedactions, redactRectToDoc, List.filterMap]
  norm_num
  exact ⟨by ring, by decide⟩

/-- C4: at commit time, both the redaction transform (pdf-redact.js) and the
annotation highlight transform (part_003) map a screen-space rectangle with
the spec formula docX = screenX/zoom, docY = pageHeight - screenY/zoom -
screenH/zoom, docW = screenW/zoom, docH = screenH/zoom, for every zoom in
[0.25, 4.0] and every page height. -/
theorem C4_commit_transform (r : RedactRect) (a : Annot) (zoom pageHeight : ℚ)
    (hz : 1/4 ≤ zoom ∧ zoom ≤ 4) :
    redactRectToDoc zoom pageHeight r
        = toDocumentSpaceSpec r.x r.y r.w r.h zoom pageHeight
    ∧ highlightDrawRect zoom pageHeight a
        = toDocumentSpaceSpec a.x a.y a.w a.h zoom pageHeight :=
  ⟨rfl, rfl⟩

/-- Witness for C4: concrete rectangle and highlight at zoom 2. -/
theorem C4_commit_transform_witness :
    ((1:ℚ)/4 ≤ 2 ∧ (2:ℚ) ≤ 4)
    ∧ (redactRectToDoc 2 842
          { pageNum := 1, x := 100, y := 100, w := 50, h := 20, color := "black" }
        = toDocumentSpaceSpec 100 100 50 20 2 842
       ∧ highlightDrawRect 2 842
          { type := "highlight", pageNum := 1, x := 60, y := 96, w := 80, h := 16 }
        = toDocumentSpaceSpec 60 96 80 16 2 842) :=
  ⟨by norm_num,
   C4_commit_transform
     { pageNum := 1, x := 100, y := 100, w := 50, h := 20, color := "black" }
     { type := "highlight", pageNum := 1, x := 60, y := 96, w := 80, h := 16 }
     2 842 (by norm_num)⟩

/-- C1 (code bug): after a redaction-apply commit (which pushes a redact
action carrying the previous bytes), undo performs only stack bookkeeping —
the session keeps the post-commit bytes [99] instead of the pre-commit bytes
[10, 20], because undo restores prevBytes only for the delete and reorder
action types. -/
theorem C1_undo_after_redact_commit_bug :
    (undo (fun _ => 1) (applyRedactionsCommit (fun _ => 1) [99] emptyEditor)).session.pdfBytes
        = [99]
    ∧ emptyEditor.session.pdfBytes = [10, 20]
    ∧ ([99] : Bytes) ≠ [10, 20]
    ∧ (undo (fun _ => 1) (applyRedactionsCommit (fun _ => 1) [99] emptyEditor)).undoStack = []
    ∧ (undo (fun _ => 1) (applyRedactionsCommit (fun _ => 1) [99] emptyEditor)).redoStack
        = [UndoAction.redact [10, 20]] := by
  refine ⟨?_, rfl, by decide, ?_, ?_⟩ <;> decide

/-- C6: a deletion request for a page set at least as large as the page
count is rejected before any engine call: the state is returned unchanged
and the engine is never invoked. -/
theorem C6_delete_all_rejected (engine : Bytes → List Nat → Bytes)
    (numPages : Bytes → Nat) (pageNums : List Nat) (s : EditorState)
    (hne : pageNums ≠ []) (hnd : pageNums.Nodup)
    (hsize : s.session.pageCount ≤ pageNums.length) :
    (deletePages engine numPages pageNums s).1 = s
    ∧ (deletePages engine numPages pageNums s).2 = false
    ∧ (deletePages engine numPages pageNums s).1.session.pageCount = s.session.pageCount
    ∧ (deletePages engine numPages pageNums s).1.session.pdfBytes = s.session.pdfBytes := by
  have hemp : pageNums.isEmpty = false := by
    cases pageNums with
    | nil => exact absurd rfl hne
    | cons a l => rfl
  have hd : deletePages engine numPages pageNums s = (s, false) := by
    simp only [deletePages]
    rw [hemp]
    simp [hsize]
  rw [hd]
  exact ⟨rfl, rfl, rfl, rfl⟩

/-- Witness for C6: requesting deletion of pages [1, 2] on the one-page demo
session. -/
theorem C6_delete_all_rejected_witness :
    (([1, 2] : List Nat) ≠ [] ∧ ([1, 2] : List Nat).Nodup
      ∧ emptyEditor.session.pageCount ≤ ([1, 2] : List Nat).length)
    ∧ ((deletePages (fun b _ => b) (fun _ => 1) [1, 2] emptyEditor).1 = emptyEditor
       ∧ (deletePages (fun b _ => b) (fun _ => 1) [1, 2] emptyEditor).2 = false
       ∧ (deletePages (fun b _ => b) (fun _ => 1) [1, 2] emptyEditor).1.session.pageCount
           = emptyEditor.session.pageCount
       ∧ (deletePages (fun b _ => b) (fun _ => 1) [1, 2] emptyEditor).1.session.pdfBytes
           = emptyEditor.session.pdfBytes) :=
  ⟨⟨by decide, by decide, by decide⟩,
   C6_delete_all_rejected (fun b _ => b) (fun _ => 1) [1, 2] emptyEditor
     (by decide) (by decide) (by decide)⟩

set_option maxRecDepth 100000 in
/-- C7: the undo stack never exceeds the bound of 50 — the push that would
exceed it evicts the oldest entry — and every push unconditionally empties
the redo stack; after 51 pushes the first-pushed action is gone and only 50
actions remain reachable. -/
theorem C7_pushUndo_bound (a : UndoAction) (s : EditorState)
    (h : s.undoStack.length ≤ MAX_UNDO) :
    (pushUndo a s).undoStack.length ≤ MAX_UNDO
    ∧ (pushUndo a s).redoStack = []
    ∧ (s.undoStack.length = MAX_UNDO →
        (pushUndo a s).undoStack = s.undoStack.drop 1 ++ [a])
    ∧ (push51.undoStack.length = MAX_UNDO
       ∧ UndoAction.redact [0] ∉ push51.undoStack
       ∧ push51.undoStack.getLast? = some (UndoAction.redact [50])) := by
  have hM : MAX_UNDO = 50 := rfl
  refine ⟨?_, rfl, ?_, by decide, by decide, by decide⟩
  · show (if MAX_UNDO < (s.undoStack ++ [a]).length
          then (s.undoStack ++ [a]).drop 1 else s.undoStack ++ [a]).length ≤ MAX_UNDO
    by_cases hc : MAX_UNDO < (s.undoStack ++ [a]).length
    · rw [if_pos hc]
      simp
      omega
    · rw [if_neg hc]
      simp at hc ⊢
      omega
  · intro h50
    show (if MAX_UNDO < (s.undoStack ++ [a]).length
          then (s.undoStack ++ [a]).drop 1 else s.undoStack ++ [a])
        = s.undoStack.drop 1 ++ [a]
    rw [if_pos (by simp; omega)]
    exact List.drop_append_of_le_length (by omega)

/-- Witness for C7: one push onto the empty demo editor state. -/
theorem C7_pushUndo_bound_witness :
    emptyEditor.undoStack.length ≤ MAX_UNDO
    ∧ ((pushUndo (UndoAction.redact [99]) emptyEditor).undoStack.length ≤ MAX_UNDO
       ∧ (pushUndo (UndoAction.redact [99]) emptyEditor).redoStack = []
       ∧ (emptyEditor.undoStack.length = MAX_UNDO →
           (pushUndo (UndoAction.redact [99]) emptyEditor).undoStack
             = emptyEditor.undoStack.drop 1 ++ [UndoAction.redact [99]])
       ∧ (push51.undoStack.length = MAX_UNDO
          ∧ UndoAction.redact [0] ∉ push51.undoStack
          ∧ push51.undoStack.getLast? = some (UndoAction.redact [50]))) :=
  ⟨by decide, C7_pushUndo_bound (UndoAction.redact [99]) emptyEditor (by decide)⟩

theorem undo_addText_eq (numPages : Bytes → Nat) (s : EditorState) (box : TextBox)
    (h : s.undoStack.getLast? = some (.addText box)) :
    undo numPages s
      = { s with undoStack := s.undoStack.dropLast,
                 redoStack := s.redoStack ++ [.addText box],
                 textBoxes := s.textBoxes.filter (fun b => b.id != box.id) } := by
  unfold undo
  rw [h]

theorem redo_addText_eq (s : EditorState) (box : TextBox)
    (h : s.redoStack.getLast? = some (.addText box)) :
    redo s
      = { s with redoStack := s.redoStack.dropLast,
                 undoStack := s.undoStack ++ [.addText box],
                 textBoxes := s.textBoxes ++ [box] } := by
  unfold redo
  rw [h]

/-- C8: for a text box placed before any engine commit, undo followed by
redo restores the exact mark recorded at creation: same id, page, x/y
position and text. -/
theorem C8_redo_after_undo_restores_mark (p : Nat) (x y : ℚ) (t : String) (fz : ℚ)
    (numPages : Bytes → Nat) (s : EditorState) :
    ((createTextBox p x y t fz s).1
        ∈ (redo (undo numPages (createTextBox p x y t fz s).2)).textBoxes)
    ∧ (createTextBox p x y t fz s).1.id = s.nextBoxId
    ∧ (createTextBox p x y t fz s).1.pageNum = p
    ∧ (createTextBox p x y t fz s).1.x = x
    ∧ (createTextBox p x y t fz s).1.y = y
    ∧ (createTextBox p x y t fz s).1.text = t := by
  refine ⟨?_, rfl, rfl, rfl, rfl, rfl⟩
  have hsnd : (createTextBox p x y t fz s).2
      = pushUndo (.addText (createTextBox p x y t fz s).1)
          { s with textBoxes := s.textBoxes ++ [(createTextBox p x y t fz s).1],
                   nextBoxId := s.nextBoxId + 1 } := rfl
  rw [hsnd]
  rw [undo_addText_eq numPages _ ((createTextBox p x y t fz s).1)
        (pushUndo_undoStack_getLast _ _)]
  rw [redo_addText_eq _ ((createTextBox p x y t fz s).1) (List.getLast?_concat _)]
  exact List.mem_append_right _ (List.mem_singleton_self _)

end PDFeditor
